import Mathlib

/-!
# Chat hub (`Server/server.go`): log, participant registry and broadcast fan-out

A shallow embedding of `ChatServer` and its four methods `Join`, `GetHistory`,
`SendMessage` and `broadcaster`.

Modelling decisions.

* `*rpc.Client` is a connection handle, a natural number.  `rpc.Dial` returns a
  non-nil client whenever it returns no error, so the registry never holds nil.
* `map[string]*rpc.Client` is an association list; Go iterates a map in an
  unspecified order, the list order stands for one such order and every
  statement below is independent of it (membership and counting only).
* `time.Now().UTC()` and the outcome of `rpc.Dial` are inputs of the call.
* `chan Message` of capacity 256 is the list of queued events in FIFO order.
  The first 256 are the channel buffer, the rest are the values of calls that
  are parked on `s.broadcast <- msg`; a call records in `parked` whether its
  send found the buffer full.
* Every method also yields the sequence of primitive actions it performs
  (mutex operations, accesses to `clients` and `history`, network operations,
  channel operations), in program order.
* One call of `Join`, `GetHistory` or `SendMessage` is one atomic step of the
  system; `broadcaster` is split into the step that receives an event, copies
  the registry and spawns the delivery goroutines (`broadcaster.recv`,
  `broadcaster.spawn`) and one step per returning delivery call
  (`broadcaster.deliver`).
-/

namespace RpcChat

/-- Handle of a `*rpc.Client` connection. -/
abbrev RpcClient := Nat

/-- The Go struct `Message`. -/
structure Message where
  SenderID : String
  Timestamp : Nat
  Text : String
deriving DecidableEq, Repr

/-- The Go struct `JoinArgs`. -/
structure JoinArgs where
  ClientID : String
  Addr : String
deriving DecidableEq, Repr

/-- The Go struct `JoinReply`. -/
structure JoinReply where
  History : List Message
deriving DecidableEq, Repr

/-- The Go struct `SendArgs`. -/
structure SendArgs where
  SenderID : String
  Text : String
deriving DecidableEq, Repr

/-- The Go struct `SendReply`. -/
structure SendReply where
  Ok : Bool
deriving DecidableEq, Repr

/-- Primitive actions of the server code, as they appear in a method body. -/
inductive Action where
  | lock
  | unlock
  | lookupClients
  | rangeClients
  | lenClients
  | storeClients
  | deleteClients
  | readHistory
  | appendHistory
  | dial (addr : String)
  | close (c : RpcClient)
  | call (c : RpcClient) (msg : Message)
  | chanSend (msg : Message)
  | chanRecv (msg : Message)
deriving DecidableEq, Repr

/-- Map lookup `m[k]` with the comma-ok form. -/
def mapGet : List (String × RpcClient) → String → Option RpcClient
  | [], _ => none
  | (k', v') :: m, k => if k' = k then some v' else mapGet m k

/-- Map assignment `m[k] = v`: replaces the entry of `k` or adds one. -/
def mapSet : List (String × RpcClient) → String → RpcClient → List (String × RpcClient)
  | [], k, v => [(k, v)]
  | (k', v') :: m, k, v => if k' = k then (k, v) :: m else (k', v') :: mapSet m k v

/-- Map deletion `delete(m, k)`. -/
def mapDelete : List (String × RpcClient) → String → List (String × RpcClient)
  | [], _ => []
  | (k', v') :: m, k => if k' = k then mapDelete m k else (k', v') :: mapDelete m k

/-- The identities that have an entry in a map. -/
def mapKeys (m : List (String × RpcClient)) : List String :=
  m.map Prod.fst

/-- The Go struct `ChatServer` (the mutex is accounted for in the action sequences). -/
structure ChatServer where
  clients : List (String × RpcClient)
  history : List Message
  broadcast : List Message
deriving DecidableEq, Repr

/-- Capacity of the `broadcast` channel, `make(chan Message, 256)`. -/
def broadcastCap : Nat := 256

/-- The hub built by `NewChatServer`: empty registry, empty log, empty queue. -/
def NewChatServer : ChatServer :=
  { clients := [], history := [], broadcast := [] }

/-- The synthetic event `Join` records for a participant. -/
def joinMsg (args : JoinArgs) (now : Nat) : Message :=
  { SenderID := "SERVER", Timestamp := now, Text := "User " ++ args.ClientID ++ " joined" }

/-- What a call of `Join` leaves behind: the hub, the reply struct (zero value
when nothing was written to it), the returned error, the actions performed and
whether the channel send found the buffer full. -/
structure JoinResult where
  server : ChatServer
  reply : JoinReply
  err : Option String
  trace : List Action
  parked : Bool
deriving DecidableEq, Repr

/-- The `Close` of the superseded connection in `Join`
(`if old, ok := s.clients[id]; ok && old != nil`). -/
def closeOld (clients : List (String × RpcClient)) (id : String) : List Action :=
  match mapGet clients id with
  | some old => [Action.close old]
  | none => []

/-- The method `ChatServer.Join`. -/
def Join (s : ChatServer) (args : JoinArgs) (now : Nat) (dial : Except String RpcClient) :
    JoinResult :=
  if args.ClientID = "" ∨ args.Addr = "" then
    { server := s, reply := { History := [] }, err := some "clientID and Addr required",
      trace := [], parked := false }
  else
    match dial with
    | .error e =>
      { server := s, reply := { History := [] },
        err := some ("cannot dial client at " ++ args.Addr ++ ": " ++ e),
        trace := [Action.dial args.Addr], parked := false }
    | .ok cli =>
      let msg := joinMsg args now
      let history := s.history ++ [msg]
      { server :=
          { clients := mapSet s.clients args.ClientID cli,
            history := history,
            broadcast := s.broadcast ++ [msg] },
        reply := { History := history },
        err := none,
        trace :=
          [Action.dial args.Addr, Action.lock, Action.lookupClients]
            ++ closeOld s.clients args.ClientID
            ++ [Action.storeClients, Action.readHistory, Action.appendHistory,
                Action.readHistory, Action.unlock, Action.chanSend msg, Action.lenClients],
        parked := decide (broadcastCap ≤ s.broadcast.length) }

/-- The method `ChatServer.GetHistory`: reply and actions (the hub is not modified). -/
def GetHistory (s : ChatServer) : JoinReply × Option String × List Action :=
  ({ History := s.history }, none, [Action.lock, Action.readHistory, Action.unlock])

/-- What a call of `SendMessage` leaves behind. -/
structure SendResult where
  server : ChatServer
  reply : SendReply
  err : Option String
  trace : List Action
  parked : Bool
deriving DecidableEq, Repr

/-- The method `ChatServer.SendMessage`. -/
def SendMessage (s : ChatServer) (args : SendArgs) (now : Nat) : SendResult :=
  let msg : Message := { SenderID := args.SenderID, Timestamp := now, Text := args.Text }
  { server := { s with history := s.history ++ [msg], broadcast := s.broadcast ++ [msg] },
    reply := { Ok := true },
    err := none,
    trace := [Action.lock, Action.readHistory, Action.appendHistory, Action.unlock,
              Action.chanSend msg],
    parked := decide (broadcastCap ≤ s.broadcast.length) }

/-- One delivery goroutine of the broadcaster: the recipient's identity, the
connection captured from the snapshot and the event to deliver. -/
structure Delivery where
  clientID : String
  client : RpcClient
  msg : Message
deriving DecidableEq, Repr

/-- The inner loop of `broadcaster`: one goroutine per entry of the snapshot
whose identity differs from the event's `SenderID`. -/
def broadcaster.spawn (msg : Message) : List (String × RpcClient) → List Delivery
  | [] => []
  | (id, c) :: rest =>
    if id = msg.SenderID then broadcaster.spawn msg rest
    else { clientID := id, client := c, msg := msg } :: broadcaster.spawn msg rest

/-- Head of one iteration of `broadcaster`: receive the next event, copy the
registry under the mutex and spawn the deliveries.  `none` when the channel is
empty (the `range` blocks). -/
def broadcaster.recv (s : ChatServer) : Option (ChatServer × List Delivery × List Action) :=
  match s.broadcast with
  | [] => none
  | msg :: rest =>
    some ({ s with broadcast := rest }, broadcaster.spawn msg s.clients,
          [Action.chanRecv msg, Action.lock, Action.lenClients, Action.rangeClients,
           Action.unlock])

/-- Body of a delivery goroutine once `client.Call("Client.Receive", msg, &ack)`
has returned, `callErr` telling whether it returned an error. -/
def broadcaster.deliver (s : ChatServer) (d : Delivery) (callErr : Bool) :
    ChatServer × List Action :=
  if callErr then
    match mapGet s.clients d.clientID with
    | some old =>
      ({ s with clients := mapDelete s.clients d.clientID },
       [Action.call d.client d.msg, Action.lock, Action.lookupClients, Action.close old,
        Action.deleteClients, Action.unlock])
    | none =>
      (s, [Action.call d.client d.msg, Action.lock, Action.lookupClients, Action.unlock])
  else
    (s, [Action.call d.client d.msg])

/-- Whether an action is a `client.Call("Client.Receive", ...)`. -/
def Action.isCall : Action → Bool
  | .call _ _ => true
  | _ => false

/-- Whether an action reads or mutates `s.clients` or `s.history`. -/
def Action.isAccess : Action → Bool
  | .lookupClients => true
  | .rangeClients => true
  | .lenClients => true
  | .storeClients => true
  | .deleteClients => true
  | .readHistory => true
  | .appendHistory => true
  | _ => false

/-- Whether an action is a `Close` of a connection. -/
def Action.isClose : Action → Bool
  | .close _ => true
  | _ => false

/-- Whether an action is a `rpc.Dial`. -/
def Action.isDial : Action → Bool
  | .dial _ => true
  | _ => false

/-- Whether an action is a network operation: dialing a participant, a
delivery call or closing a connection. -/
def Action.isNetwork (a : Action) : Bool :=
  a.isDial || a.isCall || a.isClose

/-- Walks the actions of one goroutine, `held` telling whether it holds the
mutex: every action selected by `need` must occur while it holds the mutex and
every action selected by `forbid` while it does not. -/
def disciplined (need forbid : Action → Bool) : Bool → List Action → Bool
  | _, [] => true
  | held, a :: rest =>
    (!need a || held) && (!forbid a || !held)
      && disciplined need forbid
          (match a with
           | .lock => true
           | .unlock => false
           | _ => held) rest

/-- The hub together with the delivery goroutines of the broadcaster's current
iteration that have not finished (the count of its `WaitGroup`). -/
structure System where
  server : ChatServer
  pending : List Delivery
deriving DecidableEq, Repr

/-- A freshly constructed hub with its broadcaster waiting for the first event. -/
def System.init : System :=
  { server := NewChatServer, pending := [] }

/-- Steps of the system. -/
inductive Op where
  | join (args : JoinArgs) (now : Nat) (dial : Except String RpcClient)
  | getHistory
  | send (args : SendArgs) (now : Nat)
  | fanout
  | callDone (clientID : String) (callErr : Bool)

/-- The pending delivery for an identity, if any. -/
def findPending : List Delivery → String → Option Delivery
  | [], _ => none
  | d :: ds, id => if d.clientID = id then some d else findPending ds id

/-- Removes the pending delivery of an identity (the goroutine's `wg.Done()`). -/
def dropPending : List Delivery → String → List Delivery
  | [], _ => []
  | d :: ds, id => if d.clientID = id then ds else d :: dropPending ds id

/-- One step.  `fanout` is taken only when `wg.Wait()` has returned (nothing
pending) and an event is queued; `callDone` only for a pending delivery; a step
that is not enabled leaves the system as it is. -/
def step (sys : System) : Op → System
  | .join args now dial => { sys with server := (Join sys.server args now dial).server }
  | .getHistory => sys
  | .send args now => { sys with server := (SendMessage sys.server args now).server }
  | .fanout =>
    match sys.pending, broadcaster.recv sys.server with
    | [], some (s', ds, _) => { server := s', pending := ds }
    | _, _ => sys
  | .callDone id callErr =>
    match findPending sys.pending id with
    | some d =>
      { server := (broadcaster.deliver sys.server d callErr).1,
        pending := dropPending sys.pending id }
    | none => sys

/-- Runs a sequence of steps from a state. -/
def run (sys : System) (ops : List Op) : System :=
  ops.foldl step sys

/-- Specification side of the log: the event a step is expected to add, one for
a `Join` that passes validation and dials successfully (SenderID "SERVER", Text
"User <ClientID> joined"), one for every `SendMessage` (as submitted), none for
any other step. -/
def Op.specEvent : Op → Option Message
  | .join args now (.ok _) =>
    if args.ClientID = "" ∨ args.Addr = "" then none else some (joinMsg args now)
  | .send args now => some { SenderID := args.SenderID, Timestamp := now, Text := args.Text }
  | _ => none

/-- Whether a step is a `Join` of the given identity that succeeds. -/
def Op.joins (id : String) : Op → Bool
  | .join args _ (.ok _) =>
    decide (args.ClientID = id) && !decide (args.ClientID = "") && !decide (args.Addr = "")
  | _ => false

/-- Well-formedness of a system state: the registry is a map (one entry per
identity) and the broadcaster has at most one delivery goroutine per identity. -/
def WF (sys : System) : Prop :=
  (mapKeys sys.server.clients).Nodup ∧ (sys.pending.map Delivery.clientID).Nodup

/-- An identity has no registry entry and no delivery goroutine. -/
def Absent (i : String) (sys : System) : Prop :=
  mapGet sys.server.clients i = none ∧ ∀ d ∈ sys.pending, d.clientID ≠ i

/-- The steps in which the delivery calls of a fan-out return, each with the
recipient's identity and whether the call returned an error. -/
def callResults (rs : List (String × Bool)) : List Op :=
  rs.map (fun r => Op.callDone r.1 r.2)

/-! ## The registry as a map -/

theorem mapGet_mapSet_self (m : List (String × RpcClient)) (k : String) (v : RpcClient) :
    mapGet (mapSet m k v) k = some v := by
  induction m with
  | nil => simp [mapSet, mapGet]
  | cons e m ih =>
    obtain ⟨k', v'⟩ := e
    by_cases h : k' = k
    · simp [mapSet, mapGet, h]
    · simp [mapSet, mapGet, h, ih]

theorem mapGet_mapSet_ne (m : List (String × RpcClient)) (k j : String) (v : RpcClient)
    (hj : j ≠ k) : mapGet (mapSet m k v) j = mapGet m j := by
  induction m with
  | nil => simp [mapSet, mapGet, Ne.symm hj]
  | cons e m ih =>
    obtain ⟨k', v'⟩ := e
    by_cases h : k' = k
    · subst h
      simp [mapSet, mapGet, Ne.symm hj]
    · by_cases h2 : k' = j
      · subst h2
        simp [mapSet, mapGet, h]
      · simp [mapSet, mapGet, h, h2, ih]

theorem mapGet_eq_none_iff (m : List (String × RpcClient)) (k : String) :
    mapGet m k = none ↔ k ∉ mapKeys m := by
  induction m with
  | nil => simp [mapGet, mapKeys]
  | cons e m ih =>
    obtain ⟨k', v'⟩ := e
    by_cases h : k' = k
    · simp [mapGet, mapKeys, h]
    · have h2 : ¬ k = k' := fun x => h x.symm
      simp only [mapGet, h, if_false, ih]
      simp [mapKeys, h2]

theorem mapKeys_mapSet_of_mem (m : List (String × RpcClient)) (k : String) (v : RpcClient)
    (hk : k ∈ mapKeys m) : mapKeys (mapSet m k v) = mapKeys m := by
  induction m with
  | nil => simp [mapKeys] at hk
  | cons e m ih =>
    obtain ⟨k', v'⟩ := e
    by_cases h : k' = k
    · simp [mapSet, mapKeys, h]
    · have hk2 : k ∈ mapKeys m := by
        simp only [mapKeys, List.map_cons, List.mem_cons] at hk
        rcases hk with hk | hk
        · exact absurd hk.symm h
        · exact hk
      have := ih hk2
      simp only [mapKeys] at this
      simp [mapSet, mapKeys, h, this]

theorem mapKeys_mapSet_of_not_mem (m : List (String × RpcClient)) (k : String) (v : RpcClient)
    (hk : k ∉ mapKeys m) : mapKeys (mapSet m k v) = mapKeys m ++ [k] := by
  induction m with
  | nil => simp [mapKeys, mapSet]
  | cons e m ih =>
    obtain ⟨k', v'⟩ := e
    simp only [mapKeys, List.map_cons, List.mem_cons, not_or] at hk
    have h : ¬ k' = k := fun x => hk.1 x.symm
    have := ih hk.2
    simp only [mapKeys] at this
    simp [mapSet, mapKeys, h, this]

theorem nodup_mapKeys_mapSet (m : List (String × RpcClient)) (k : String) (v : RpcClient)
    (hm : (mapKeys m).Nodup) : (mapKeys (mapSet m k v)).Nodup := by
  by_cases hk : k ∈ mapKeys m
  · rw [mapKeys_mapSet_of_mem m k v hk]
    exact hm
  · rw [mapKeys_mapSet_of_not_mem m k v hk]
    exact List.Nodup.append hm (List.nodup_singleton k) (by simpa using hk)

theorem length_mapSet_of_mem (m : List (String × RpcClient)) (k : String) (v : RpcClient)
    (hk : k ∈ mapKeys m) : (mapSet m k v).length = m.length := by
  have h := congrArg List.length (mapKeys_mapSet_of_mem m k v hk)
  simpa [mapKeys] using h

theorem mapKeys_mapDelete_sublist (m : List (String × RpcClient)) (k : String) :
    List.Sublist (mapKeys (mapDelete m k)) (mapKeys m) := by
  induction m with
  | nil => simp [mapDelete, mapKeys]
  | cons e m ih =>
    obtain ⟨k', v'⟩ := e
    simp only [mapKeys] at ih
    by_cases h : k' = k
    · simpa [mapDelete, mapKeys, h] using List.Sublist.cons k ih
    · simpa [mapDelete, mapKeys, h] using ih

theorem mapGet_mapDelete_self (m : List (String × RpcClient)) (k : String) :
    mapGet (mapDelete m k) k = none := by
  induction m with
  | nil => simp [mapDelete, mapGet]
  | cons e m ih =>
    obtain ⟨k', v'⟩ := e
    by_cases h : k' = k
    · simp [mapDelete, h, ih]
    · simp [mapDelete, mapGet, h, ih]

theorem mapGet_mapDelete_ne (m : List (String × RpcClient)) (k j : String) (hj : j ≠ k) :
    mapGet (mapDelete m k) j = mapGet m j := by
  induction m with
  | nil => simp [mapDelete, mapGet]
  | cons e m ih =>
    obtain ⟨k', v'⟩ := e
    by_cases h : k' = k
    · subst h
      simp [mapDelete, mapGet, Ne.symm hj, ih]
    · by_cases h2 : k' = j
      · subst h2
        simp [mapDelete, mapGet, h]
      · simp [mapDelete, mapGet, h, h2, ih]

theorem nodup_mapKeys_mapDelete (m : List (String × RpcClient)) (k : String)
    (hm : (mapKeys m).Nodup) : (mapKeys (mapDelete m k)).Nodup :=
  List.Nodup.sublist (mapKeys_mapDelete_sublist m k) hm

theorem mem_of_mapGet_eq_some (m : List (String × RpcClient)) (k : String) (c : RpcClient)
    (h : mapGet m k = some c) : (k, c) ∈ m := by
  induction m with
  | nil => simp [mapGet] at h
  | cons e m ih =>
    obtain ⟨k', v'⟩ := e
    by_cases hk : k' = k
    · subst hk
      simp only [mapGet, if_true, Option.some.injEq] at h
      simp [h]
    · simp only [mapGet, hk, if_false] at h
      exact List.mem_cons_of_mem _ (ih h)

theorem mapGet_eq_some_of_mem (m : List (String × RpcClient)) (k : String) (c : RpcClient)
    (hm : (mapKeys m).Nodup) (h : (k, c) ∈ m) : mapGet m k = some c := by
  induction m with
  | nil => simp at h
  | cons e m ih =>
    obtain ⟨k', v'⟩ := e
    simp only [mapKeys, List.map_cons, List.nodup_cons] at hm
    rcases List.mem_cons.1 h with h | h
    · cases h
      simp [mapGet]
    · have hk : ¬ k' = k := by
        intro hk
        subst hk
        exact hm.1 (List.mem_map_of_mem Prod.fst h)
      simp only [mapGet, hk, if_false]
      exact ih hm.2 h

/-! ## The fan-out -/

theorem mem_spawn (msg : Message) (R : List (String × RpcClient)) (d : Delivery) :
    d ∈ broadcaster.spawn msg R
      ↔ d.msg = msg ∧ d.clientID ≠ msg.SenderID ∧ (d.clientID, d.client) ∈ R := by
  induction R with
  | nil => simp [broadcaster.spawn]
  | cons e R ih =>
    obtain ⟨id, c⟩ := e
    by_cases h : id = msg.SenderID
    · simp only [broadcaster.spawn, h, if_true, ih, List.mem_cons, Prod.mk.injEq]
      constructor
      · rintro ⟨h1, h2, h3⟩
        exact ⟨h1, h2, Or.inr h3⟩
      · rintro ⟨h1, h2, h3 | h3⟩
        · exact absurd h3.1 h2
        · exact ⟨h1, h2, h3⟩
    · simp only [broadcaster.spawn, h, if_false, ih, List.mem_cons, Prod.mk.injEq]
      constructor
      · rintro (h1 | ⟨h1, h2, h3⟩)
        · subst h1
          exact ⟨rfl, h, Or.inl ⟨rfl, rfl⟩⟩
        · exact ⟨h1, h2, Or.inr h3⟩
      · rintro ⟨h1, h2, h3 | h3⟩
        · left
          cases d
          simp_all
        · exact Or.inr ⟨h1, h2, h3⟩

theorem spawn_ids_sublist (msg : Message) (R : List (String × RpcClient)) :
    List.Sublist ((broadcaster.spawn msg R).map Delivery.clientID) (mapKeys R) := by
  induction R with
  | nil => simp [broadcaster.spawn, mapKeys]
  | cons e R ih =>
    obtain ⟨id, c⟩ := e
    simp only [mapKeys] at ih
    by_cases h : id = msg.SenderID
    · simpa [broadcaster.spawn, mapKeys, h] using List.Sublist.cons msg.SenderID ih
    · simpa [broadcaster.spawn, mapKeys, h] using ih

theorem nodup_spawn_ids (msg : Message) (R : List (String × RpcClient))
    (hR : (mapKeys R).Nodup) : ((broadcaster.spawn msg R).map Delivery.clientID).Nodup :=
  List.Nodup.sublist (spawn_ids_sublist msg R) hR

theorem count_spawn_id (msg : Message) (R : List (String × RpcClient))
    (hR : (mapKeys R).Nodup) (id : String) :
    ((broadcaster.spawn msg R).map Delivery.clientID).count id
      = if id ∈ mapKeys R ∧ id ≠ msg.SenderID then 1 else 0 := by
  by_cases h : id ∈ mapKeys R ∧ id ≠ msg.SenderID
  · rw [if_pos h]
    apply List.count_eq_one_of_mem (nodup_spawn_ids msg R hR)
    obtain ⟨hmem, hne⟩ := h
    have hsome : mapGet R id ≠ none := by
      rw [Ne, mapGet_eq_none_iff]
      exact fun x => x hmem
    obtain ⟨c, hc⟩ := Option.ne_none_iff_exists'.1 hsome
    have hd : ({ clientID := id, client := c, msg := msg } : Delivery) ∈ broadcaster.spawn msg R :=
      (mem_spawn msg R _).2 ⟨rfl, hne, mem_of_mapGet_eq_some R id c hc⟩
    exact List.mem_map.2 ⟨_, hd, rfl⟩
  · rw [if_neg h]
    apply List.count_eq_zero_of_not_mem
    intro hmem
    obtain ⟨d, hd, hid⟩ := List.mem_map.1 hmem
    obtain ⟨_, h2, h3⟩ := (mem_spawn msg R d).1 hd
    apply h
    subst hid
    exact ⟨List.mem_map.2 ⟨_, h3, rfl⟩, h2⟩

/-! ## The log -/

theorem Join_history (s : ChatServer) (args : JoinArgs) (now : Nat)
    (dial : Except String RpcClient) :
    (Join s args now dial).server.history
      = s.history ++ (Op.specEvent (Op.join args now dial)).toList := by
  unfold Join Op.specEvent
  by_cases hv : args.ClientID = "" ∨ args.Addr = ""
  · cases dial <;> simp [hv]
  · cases dial <;> simp [hv]

theorem deliver_history (s : ChatServer) (d : Delivery) (callErr : Bool) :
    (broadcaster.deliver s d callErr).1.history = s.history := by
  unfold broadcaster.deliver
  cases callErr
  · simp
  · cases h : mapGet s.clients d.clientID <;> simp

theorem deliver_broadcast (s : ChatServer) (d : Delivery) (callErr : Bool) :
    (broadcaster.deliver s d callErr).1.broadcast = s.broadcast := by
  unfold broadcaster.deliver
  cases callErr
  · simp
  · cases h : mapGet s.clients d.clientID <;> simp

theorem step_history (sys : System) (op : Op) :
    (step sys op).server.history = sys.server.history ++ op.specEvent.toList := by
  cases op with
  | join args now dial => simpa [step] using Join_history sys.server args now dial
  | getHistory => simp [step, Op.specEvent]
  | send args now => simp [step, SendMessage, Op.specEvent]
  | fanout =>
    simp only [step, Op.specEvent, Option.toList, List.append_nil]
    cases hp : sys.pending with
    | cons d ds => simp
    | nil =>
      cases hq : sys.server.broadcast with
      | nil => simp [broadcaster.recv, hq]
      | cons e rest => simp [broadcaster.recv, hq]
  | callDone id callErr =>
    simp only [step, Op.specEvent, Option.toList, List.append_nil]
    cases hf : findPending sys.pending id with
    | none => simp
    | some d => simpa using deliver_history sys.server d callErr

theorem run_history (ops : List Op) (sys : System) :
    (run sys ops).server.history = sys.server.history ++ ops.filterMap Op.specEvent := by
  induction ops generalizing sys with
  | nil => simp [run]
  | cons op ops ih =>
    have h := ih (step sys op)
    simp only [run, List.foldl_cons] at h ⊢
    rw [h, step_history]
    cases hl : op.specEvent <;> simp [List.filterMap_cons, hl]

/-- C1: on a freshly constructed hub, after any sequence of Join, SendMessage,
GetHistory and broadcaster steps, GetHistory returns (with no error and without
changing the hub) exactly the events of the successful Joins and of the
SendMessages, one each and in the order the steps were applied; every other
step leaves the log as it is; SendMessage replies Ok = true with a nil error in
every state, whether or not the sender is registered, and its channel send
proceeds at once exactly when fewer than 256 events are queued. -/
theorem history_is_log_of_operations (ops : List Op) :
    (GetHistory (run System.init ops).server).1.History = ops.filterMap Op.specEvent
    ∧ (GetHistory (run System.init ops).server).2.1 = none
    ∧ (∀ sys : System, step sys Op.getHistory = sys)
    ∧ (∀ (sys : System) (op : Op),
        (step sys op).server.history = sys.server.history ++ op.specEvent.toList)
    ∧ (∀ (args : JoinArgs) (now : Nat) (dial : Except String RpcClient),
        (Op.join args now dial).specEvent
          = if (Join NewChatServer args now dial).err = none then
              some { SenderID := "SERVER", Timestamp := now,
                     Text := "User " ++ args.ClientID ++ " joined" }
            else none)
    ∧ (∀ (s : ChatServer) (args : SendArgs) (now : Nat),
        (SendMessage s args now).reply.Ok = true
        ∧ (SendMessage s args now).err = none
        ∧ (SendMessage s args now).server.history
            = s.history ++ [{ SenderID := args.SenderID, Timestamp := now, Text := args.Text }]
        ∧ ((SendMessage s args now).parked = false ↔ s.broadcast.length < broadcastCap)) := by
  refine ⟨?_, rfl, fun _ => rfl, step_history, ?_, ?_⟩
  · have h := run_history ops System.init
    simpa [GetHistory, System.init, NewChatServer] using h
  · intro args now dial
    unfold Join Op.specEvent joinMsg
    by_cases hv : args.ClientID = "" ∨ args.Addr = ""
    · cases dial <;> simp [hv]
    · cases dial <;> simp [hv]
  · intro s args now
    simp [SendMessage]

/-- C1, the scenario: alice joins, bob joins, bob sends "hi". -/
theorem history_alice_bob_hi :
    (GetHistory (run System.init
        [Op.join { ClientID := "alice", Addr := ":10001" } 1 (Except.ok 7),
         Op.join { ClientID := "bob", Addr := ":10002" } 2 (Except.ok 8),
         Op.send { SenderID := "bob", Text := "hi" } 3]).server).1.History
      = [{ SenderID := "SERVER", Timestamp := 1, Text := "User alice joined" },
         { SenderID := "SERVER", Timestamp := 2, Text := "User bob joined" },
         { SenderID := "bob", Timestamp := 3, Text := "hi" }] :=
  (history_is_log_of_operations _).1.trans (by decide)

/-- C3: the reply of a successful Join carries the log as it was before the
call followed by the joiner's own join event, which is also the hub's log right
after the call, so every earlier event is in it and its last element is the
join event (SenderID "SERVER", Text "User <ClientID> joined"). -/
theorem join_reply_is_full_history (s : ChatServer) (args : JoinArgs) (now : Nat)
    (dial : Except String RpcClient) (hok : (Join s args now dial).err = none) :
    (Join s args now dial).reply.History
        = s.history ++ [{ SenderID := "SERVER", Timestamp := now,
                          Text := "User " ++ args.ClientID ++ " joined" }]
    ∧ (Join s args now dial).reply.History = (Join s args now dial).server.history
    ∧ (∀ e ∈ s.history, e ∈ (Join s args now dial).reply.History)
    ∧ (Join s args now dial).reply.History.getLast?
        = some { SenderID := "SERVER", Timestamp := now,
                 Text := "User " ++ args.ClientID ++ " joined" } := by
  unfold Join joinMsg at hok ⊢
  by_cases hv : args.ClientID = "" ∨ args.Addr = ""
  · simp [hv] at hok
  · cases dial with
    | error e => simp [hv] at hok
    | ok cli =>
      rw [if_neg hv]
      refine ⟨rfl, rfl, ?_, ?_⟩
      · intro e he
        exact List.mem_append_left _ he
      · simp

/-- C3, at a concrete input: bob joins a hub whose log holds alice's join. -/
theorem join_reply_is_full_history_witness :
    (Join (Join NewChatServer { ClientID := "alice", Addr := ":10001" } 1 (Except.ok 7)).server
        { ClientID := "bob", Addr := ":10002" } 2 (Except.ok 8)).reply.History
      = [{ SenderID := "SERVER", Timestamp := 1, Text := "User alice joined" }]
        ++ [{ SenderID := "SERVER", Timestamp := 2, Text := "User " ++ "bob" ++ " joined" }] :=
  (join_reply_is_full_history
    (Join NewChatServer { ClientID := "alice", Addr := ":10001" } 1 (Except.ok 7)).server
    { ClientID := "bob", Addr := ":10002" } 2 (Except.ok 8) (by decide)).1

/-! ## Delivery goroutines and well-formedness -/

theorem dropPending_sublist (ds : List Delivery) (id : String) :
    List.Sublist (dropPending ds id) ds := by
  induction ds with
  | nil => simp [dropPending]
  | cons d ds ih =>
    by_cases h : d.clientID = id
    · simp [dropPending, h]
    · simpa [dropPending, h] using ih

theorem findPending_some (ds : List Delivery) (id : String) (d : Delivery)
    (h : findPending ds id = some d) : d ∈ ds ∧ d.clientID = id := by
  induction ds with
  | nil => simp [findPending] at h
  | cons d' ds ih =>
    by_cases hd : d'.clientID = id
    · simp only [findPending, hd, if_true, Option.some.injEq] at h
      subst h
      exact ⟨List.mem_cons_self _ _, hd⟩
    · simp only [findPending, hd, if_false] at h
      exact ⟨List.mem_cons_of_mem _ (ih h).1, (ih h).2⟩

theorem findPending_none (ds : List Delivery) (id : String)
    (h : ∀ d ∈ ds, d.clientID ≠ id) : findPending ds id = none := by
  cases hf : findPending ds id with
  | none => rfl
  | some d => exact absurd (findPending_some ds id d hf).2 (h d (findPending_some ds id d hf).1)

theorem findPending_of_mem (ds : List Delivery) (hn : (ds.map Delivery.clientID).Nodup)
    (d : Delivery) (hd : d ∈ ds) : findPending ds d.clientID = some d := by
  induction ds with
  | nil => simp at hd
  | cons d' ds ih =>
    simp only [List.map_cons, List.nodup_cons] at hn
    rcases List.mem_cons.1 hd with h | h
    · subst h
      simp [findPending]
    · have hne : ¬ d'.clientID = d.clientID := by
        intro he
        exact hn.1 (he ▸ List.mem_map_of_mem Delivery.clientID h)
      simp only [findPending, hne, if_false]
      exact ih hn.2 h

theorem not_mem_dropPending (ds : List Delivery) (hn : (ds.map Delivery.clientID).Nodup)
    (id : String) : ∀ d ∈ dropPending ds id, d.clientID ≠ id := by
  induction ds with
  | nil => simp [dropPending]
  | cons d' ds ih =>
    simp only [List.map_cons, List.nodup_cons] at hn
    by_cases h : d'.clientID = id
    · simp only [dropPending, h, if_true]
      intro d hd he
      apply hn.1
      rw [h, ← he]
      exact List.mem_map_of_mem Delivery.clientID hd
    · simp only [dropPending, h, if_false]
      intro d hd
      rcases List.mem_cons.1 hd with hd | hd
      · subst hd
        exact h
      · exact ih hn.2 d hd

theorem deliver_false (s : ChatServer) (d : Delivery) : (broadcaster.deliver s d false).1 = s := by
  simp [broadcaster.deliver]

theorem deliver_get_ne (s : ChatServer) (d : Delivery) (callErr : Bool) (j : String)
    (hj : j ≠ d.clientID) :
    mapGet (broadcaster.deliver s d callErr).1.clients j = mapGet s.clients j := by
  unfold broadcaster.deliver
  cases callErr
  · simp
  · cases h : mapGet s.clients d.clientID with
    | none => simp
    | some old => simpa using mapGet_mapDelete_ne s.clients d.clientID j hj

theorem deliver_true_get_self (s : ChatServer) (d : Delivery) :
    mapGet (broadcaster.deliver s d true).1.clients d.clientID = none := by
  unfold broadcaster.deliver
  cases h : mapGet s.clients d.clientID with
  | none => simpa using h
  | some old => simpa using mapGet_mapDelete_self s.clients d.clientID

theorem deliver_get_none (s : ChatServer) (d : Delivery) (callErr : Bool) (j : String)
    (hj : mapGet s.clients j = none) : mapGet (broadcaster.deliver s d callErr).1.clients j = none := by
  by_cases h : j = d.clientID
  · cases callErr
    · rw [deliver_false]
      exact hj
    · rw [h]
      exact deliver_true_get_self s d
  · rw [deliver_get_ne s d callErr j h]
    exact hj

theorem deliver_nodup (s : ChatServer) (d : Delivery) (callErr : Bool)
    (hs : (mapKeys s.clients).Nodup) : (mapKeys (broadcaster.deliver s d callErr).1.clients).Nodup := by
  unfold broadcaster.deliver
  cases callErr
  · simpa using hs
  · cases h : mapGet s.clients d.clientID with
    | none => simpa using hs
    | some old => simpa using nodup_mapKeys_mapDelete s.clients d.clientID hs

theorem Join_nodup (s : ChatServer) (args : JoinArgs) (now : Nat)
    (dial : Except String RpcClient) (hs : (mapKeys s.clients).Nodup) :
    (mapKeys (Join s args now dial).server.clients).Nodup := by
  unfold Join
  by_cases hv : args.ClientID = "" ∨ args.Addr = ""
  · simpa [hv] using hs
  · cases dial with
    | error e => simpa [hv] using hs
    | ok cli => simpa [hv] using nodup_mapKeys_mapSet s.clients args.ClientID cli hs

theorem Join_get_of_not_joins (s : ChatServer) (args : JoinArgs) (now : Nat)
    (dial : Except String RpcClient) (i : String)
    (hop : (Op.join args now dial).joins i = false) :
    mapGet (Join s args now dial).server.clients i = mapGet s.clients i := by
  unfold Join
  by_cases hv : args.ClientID = "" ∨ args.Addr = ""
  · simp [hv]
  · cases dial with
    | error e => simp [hv]
    | ok cli =>
      have h1 : ¬ args.ClientID = "" := fun h => hv (Or.inl h)
      have h2 : ¬ args.Addr = "" := fun h => hv (Or.inr h)
      have hne : i ≠ args.ClientID := by
        intro h
        simp [Op.joins, h1, h2, h] at hop
      simpa [hv] using mapGet_mapSet_ne s.clients args.ClientID i cli hne

theorem WF_init : WF System.init := by
  simp [WF, System.init, NewChatServer, mapKeys]

theorem WF_step (sys : System) (op : Op) (h : WF sys) : WF (step sys op) := by
  obtain ⟨hc, hp⟩ := h
  cases op with
  | join args now dial => exact ⟨Join_nodup sys.server args now dial hc, hp⟩
  | getHistory => exact ⟨hc, hp⟩
  | send args now => exact ⟨hc, hp⟩
  | fanout =>
    simp only [step]
    cases hpd : sys.pending with
    | cons d ds =>
      simp only
      exact ⟨hc, hp⟩
    | nil =>
      cases hq : sys.server.broadcast with
      | nil =>
        simp only [broadcaster.recv, hq]
        exact ⟨hc, hp⟩
      | cons e rest =>
        simp only [broadcaster.recv, hq]
        exact ⟨hc, nodup_spawn_ids e sys.server.clients hc⟩
  | callDone id callErr =>
    simp only [step]
    cases hf : findPending sys.pending id with
    | none => exact ⟨hc, hp⟩
    | some d =>
      refine ⟨deliver_nodup sys.server d callErr hc, ?_⟩
      exact List.Nodup.sublist (List.Sublist.map _ (dropPending_sublist sys.pending id)) hp

theorem WF_run (ops : List Op) (sys : System) (h : WF sys) : WF (run sys ops) := by
  induction ops generalizing sys with
  | nil => exact h
  | cons op ops ih => exact ih (step sys op) (WF_step sys op h)

theorem Absent_step (i : String) (sys : System) (op : Op) (hop : op.joins i = false)
    (h : Absent i sys) : Absent i (step sys op) := by
  obtain ⟨hc, hp⟩ := h
  cases op with
  | join args now dial =>
    exact ⟨(Join_get_of_not_joins sys.server args now dial i hop).trans hc, hp⟩
  | getHistory => exact ⟨hc, hp⟩
  | send args now => exact ⟨hc, hp⟩
  | fanout =>
    simp only [step]
    cases hpd : sys.pending with
    | cons d ds =>
      simp only
      exact ⟨hc, hpd ▸ hp⟩
    | nil =>
      cases hq : sys.server.broadcast with
      | nil =>
        simp only [broadcaster.recv, hq]
        exact ⟨hc, hpd ▸ hp⟩
      | cons e rest =>
        simp only [broadcaster.recv, hq]
        refine ⟨hc, ?_⟩
        intro d hd he
        obtain ⟨_, _, h3⟩ := (mem_spawn e sys.server.clients d).1 hd
        have hk : i ∈ mapKeys sys.server.clients := he ▸ List.mem_map.2 ⟨_, h3, rfl⟩
        exact (mapGet_eq_none_iff sys.server.clients i).1 hc hk
  | callDone id callErr =>
    simp only [step]
    cases hf : findPending sys.pending id with
    | none => exact ⟨hc, hp⟩
    | some d =>
      refine ⟨deliver_get_none sys.server d callErr i hc, ?_⟩
      intro d' hd'
      exact hp d' ((dropPending_sublist sys.pending id).subset hd')

theorem Absent_run (i : String) (ops : List Op) (sys : System)
    (hops : ∀ op ∈ ops, op.joins i = false) (h : Absent i sys) : Absent i (run sys ops) := by
  induction ops generalizing sys with
  | nil => exact h
  | cons op ops ih =>
    exact ih (step sys op) (fun o ho => hops o (List.mem_cons_of_mem _ ho))
      (Absent_step i sys op (hops op (List.mem_cons_self _ _)) h)

/-- C2: when the broadcaster fans an event e out over the registry R it
snapshots, it spawns exactly one delivery goroutine for every identity of R
other than e.SenderID, over that identity's snapshotted connection and carrying
e, and none for e.SenderID; a delivery goroutine makes exactly one
Client.Receive call, whatever its outcome. -/
theorem fanout_one_call_per_other_identity (e : Message) (R : List (String × RpcClient))
    (hR : (mapKeys R).Nodup) :
    (∀ (id : String) (c : RpcClient), mapGet R id = some c → id ≠ e.SenderID →
        (broadcaster.spawn e R).count { clientID := id, client := c, msg := e } = 1
        ∧ ((broadcaster.spawn e R).map Delivery.clientID).count id = 1)
    ∧ ((broadcaster.spawn e R).map Delivery.clientID).count e.SenderID = 0
    ∧ (∀ d ∈ broadcaster.spawn e R, d.msg = e ∧ mapGet R d.clientID = some d.client)
    ∧ (∀ (s : ChatServer) (d : Delivery) (callErr : Bool),
        (broadcaster.deliver s d callErr).2.filter Action.isCall = [Action.call d.client d.msg])
    ∧ (∀ (sys : System) (rest : List Message),
        sys.pending = [] → sys.server.broadcast = e :: rest → sys.server.clients = R →
        (step sys Op.fanout).pending = broadcaster.spawn e R) := by
  refine ⟨?_, ?_, ?_, ?_, ?_⟩
  · intro id c hget hne
    have hmem : (id, c) ∈ R := mem_of_mapGet_eq_some R id c hget
    constructor
    · apply List.count_eq_one_of_mem (List.Nodup.of_map _ (nodup_spawn_ids e R hR))
      exact (mem_spawn e R _).2 ⟨rfl, hne, hmem⟩
    · rw [count_spawn_id e R hR id, if_pos]
      exact ⟨List.mem_map.2 ⟨_, hmem, rfl⟩, hne⟩
  · rw [count_spawn_id e R hR, if_neg]
    exact fun h => h.2 rfl
  · intro d hd
    obtain ⟨h1, _, h3⟩ := (mem_spawn e R d).1 hd
    exact ⟨h1, mapGet_eq_some_of_mem R _ _ hR h3⟩
  · intro s d callErr
    unfold broadcaster.deliver
    cases callErr
    · simp [Action.isCall]
    · cases h : mapGet s.clients d.clientID <;> simp [Action.isCall]
  · intro sys rest hp hq hc
    simp [step, hp, broadcaster.recv, hq, hc]

/-- C2, at a concrete input: bob's "hi" fanned out over alice and bob. -/
theorem fanout_one_call_per_other_identity_witness :
    ((broadcaster.spawn { SenderID := "bob", Timestamp := 3, Text := "hi" }
        [("alice", 7), ("bob", 8)]).map Delivery.clientID).count "alice" = 1
    ∧ ((broadcaster.spawn { SenderID := "bob", Timestamp := 3, Text := "hi" }
        [("alice", 7), ("bob", 8)]).map Delivery.clientID).count "bob" = 0 :=
  ⟨((fanout_one_call_per_other_identity { SenderID := "bob", Timestamp := 3, Text := "hi" }
      [("alice", 7), ("bob", 8)] (by decide)).1 "alice" 7 (by decide) (by decide)).2,
   (fanout_one_call_per_other_identity { SenderID := "bob", Timestamp := 3, Text := "hi" }
      [("alice", 7), ("bob", 8)] (by decide)).2.1⟩

/-- C4: Join returns an error exactly when ClientID is empty, Addr is empty or
the dial fails; and a Join that returns an error leaves the hub (log, registry
and queue) as it was, closes no connection, stores no registry entry, appends
no event and sends nothing on the broadcast channel. -/
theorem join_error_iff_and_no_effect (s : ChatServer) (args : JoinArgs) (now : Nat)
    (dial : Except String RpcClient) :
    ((Join s args now dial).err ≠ none
        ↔ (args.ClientID = "" ∨ args.Addr = "" ∨ ∃ e, dial = Except.error e))
    ∧ ((Join s args now dial).err ≠ none →
        (Join s args now dial).server = s
        ∧ (Join s args now dial).server.history = s.history
        ∧ (Join s args now dial).server.clients = s.clients
        ∧ (Join s args now dial).server.broadcast = s.broadcast
        ∧ (Join s args now dial).reply.History = []
        ∧ (∀ a ∈ (Join s args now dial).trace, a = Action.dial args.Addr)
        ∧ (∀ pending : List Delivery,
            step { server := s, pending := pending } (Op.join args now dial)
              = { server := s, pending := pending })) := by
  unfold step Join
  by_cases hv : args.ClientID = "" ∨ args.Addr = ""
  · rw [if_pos hv]
    refine ⟨?_, ?_⟩
    · simp only [ne_eq, reduceCtorEq, not_false_eq_true, true_iff]
      rcases hv with hv | hv
      · exact Or.inl hv
      · exact Or.inr (Or.inl hv)
    · intro _
      simp [hv]
  · rw [if_neg hv]
    have h1 : ¬ args.ClientID = "" := fun h => hv (Or.inl h)
    have h2 : ¬ args.Addr = "" := fun h => hv (Or.inr h)
    cases dial with
    | error e => simp [h1, h2]
    | ok cli => simp [h1, h2]

/-- C4, the scenario: carol joins with an unreachable address after alice and
bob have joined; the log has no "User carol joined" event and the registry has
no entry for carol. -/
theorem join_error_carol_unreachable :
    (Join (run System.init
        [Op.join { ClientID := "alice", Addr := ":10001" } 1 (Except.ok 7),
         Op.join { ClientID := "bob", Addr := ":10002" } 2 (Except.ok 8)]).server
      { ClientID := "carol", Addr := ":10003" } 3 (Except.error "connection refused")).server
      = (run System.init
        [Op.join { ClientID := "alice", Addr := ":10001" } 1 (Except.ok 7),
         Op.join { ClientID := "bob", Addr := ":10002" } 2 (Except.ok 8)]).server
    ∧ mapGet (Join (run System.init
        [Op.join { ClientID := "alice", Addr := ":10001" } 1 (Except.ok 7),
         Op.join { ClientID := "bob", Addr := ":10002" } 2 (Except.ok 8)]).server
      { ClientID := "carol", Addr := ":10003" } 3
        (Except.error "connection refused")).server.clients "carol" = none
    ∧ (∀ e ∈ (GetHistory (Join (run System.init
        [Op.join { ClientID := "alice", Addr := ":10001" } 1 (Except.ok 7),
         Op.join { ClientID := "bob", Addr := ":10002" } 2 (Except.ok 8)]).server
      { ClientID := "carol", Addr := ":10003" } 3
        (Except.error "connection refused")).server).1.History,
        e.Text ≠ "User carol joined") :=
  ⟨((join_error_iff_and_no_effect _ _ _ _).2 (by decide)).1, by decide, by decide⟩

/-- C8 as stated fails: after alice and then bob join a fresh hub, the history
in bob's reply has two events, not one. -/
theorem bob_reply_is_not_one_event :
    ¬ ((Join (Join NewChatServer { ClientID := "alice", Addr := ":10001" } 1
          (Except.ok 7)).server
        { ClientID := "bob", Addr := ":10002" } 2 (Except.ok 8)).reply.History.length = 1) := by
  decide

/-- C8, amended: starting from a freshly constructed hub, when alice joins
successfully and then bob joins successfully, the history in bob's Join reply
has exactly two events, both with SenderID "SERVER": "User alice joined"
followed by bob's own "User bob joined". -/
theorem bob_reply_after_alice (t1 t2 : Nat) (a1 a2 : String) (c1 c2 : RpcClient)
    (h1 : a1 ≠ "") (h2 : a2 ≠ "") :
    (Join (Join NewChatServer { ClientID := "alice", Addr := a1 } t1 (Except.ok c1)).server
        { ClientID := "bob", Addr := a2 } t2 (Except.ok c2)).err = none
    ∧ (Join (Join NewChatServer { ClientID := "alice", Addr := a1 } t1 (Except.ok c1)).server
        { ClientID := "bob", Addr := a2 } t2 (Except.ok c2)).reply.History
      = [{ SenderID := "SERVER", Timestamp := t1, Text := "User alice joined" },
         { SenderID := "SERVER", Timestamp := t2, Text := "User bob joined" }] := by
  have ha : ¬ ("alice" = "") := by decide
  have hb : ¬ ("bob" = "") := by decide
  have e1 : "User " ++ "alice" ++ " joined" = "User alice joined" := by decide
  have e2 : "User " ++ "bob" ++ " joined" = "User bob joined" := by decide
  simp [Join, joinMsg, NewChatServer, h1, h2, ha, hb, e1, e2]

/-- C8, amended, at a concrete input. -/
theorem bob_reply_after_alice_witness :
    (Join (Join NewChatServer { ClientID := "alice", Addr := ":10001" } 1 (Except.ok 7)).server
        { ClientID := "bob", Addr := ":10002" } 2 (Except.ok 8)).reply.History
      = [{ SenderID := "SERVER", Timestamp := 1, Text := "User alice joined" },
         { SenderID := "SERVER", Timestamp := 2, Text := "User bob joined" }] :=
  (bob_reply_after_alice 1 2 ":10001" ":10002" 7 8 (by decide) (by decide)).2

/-- C7 as stated fails: alice joins a fresh hub and the broadcaster fans her
join event out; a delivery of that event to alice herself is pending. -/
theorem join_event_is_sent_to_joiner :
    ¬ (∀ d ∈ (run System.init
          [Op.join { ClientID := "alice", Addr := ":10001" } 1 (Except.ok 7),
           Op.fanout]).pending,
        d.clientID ≠ "alice") := by
  decide

/-- C7, amended: the join event that a successful Join(ClientID, Addr) enqueues
carries SenderID "SERVER", so the broadcaster excludes the identity "SERVER"
and not the joiner: fanned out over a registry that contains ClientID, the join
event is delivered to ClientID exactly once, unless ClientID is "SERVER", in
which case it is not delivered to it. -/
theorem join_event_delivered_unless_server (s : ChatServer) (args : JoinArgs) (now : Nat)
    (dial : Except String RpcClient) (hok : (Join s args now dial).err = none)
    (R : List (String × RpcClient)) (hR : (mapKeys R).Nodup)
    (hmem : args.ClientID ∈ mapKeys R) :
    (Join s args now dial).server.broadcast = s.broadcast ++ [joinMsg args now]
    ∧ (joinMsg args now).SenderID = "SERVER"
    ∧ args.ClientID ∈ mapKeys (Join s args now dial).server.clients
    ∧ ((broadcaster.spawn (joinMsg args now) R).map Delivery.clientID).count args.ClientID
        = if args.ClientID = "SERVER" then 0 else 1 := by
  refine ⟨?_, rfl, ?_, ?_⟩
  · unfold Join at hok ⊢
    by_cases hv : args.ClientID = "" ∨ args.Addr = ""
    · simp [hv] at hok
    · cases dial with
      | error e => simp [hv] at hok
      | ok cli => rw [if_neg hv]
  · unfold Join at hok ⊢
    by_cases hv : args.ClientID = "" ∨ args.Addr = ""
    · simp [hv] at hok
    · cases dial with
      | error e => simp [hv] at hok
      | ok cli =>
        rw [if_neg hv]
        have h := mapGet_mapSet_self s.clients args.ClientID cli
        by_contra hc
        rw [← mapGet_eq_none_iff] at hc
        simp only at hc
        rw [h] at hc
        exact absurd hc (by simp)
  · rw [count_spawn_id _ R hR]
    by_cases h : args.ClientID = "SERVER"
    · simp [h, joinMsg]
    · simp [h, joinMsg, hmem]

/-- C7, amended, at a concrete input: alice's join event over the registry
that holds alice. -/
theorem join_event_delivered_unless_server_witness :
    ((broadcaster.spawn (joinMsg { ClientID := "alice", Addr := ":10001" } 1)
        [("alice", 7)]).map Delivery.clientID).count "alice"
      = if "alice" = "SERVER" then 0 else 1 :=
  (join_event_delivered_unless_server NewChatServer { ClientID := "alice", Addr := ":10001" } 1
    (Except.ok 7) (by decide) [("alice", 7)] (by decide) (by decide)).2.2.2

/-! ## Pruning -/

theorem step_callDone_get (sys : System) (id : String) (callErr : Bool) (j : String)
    (h : id ≠ j ∨ callErr = false) :
    mapGet (step sys (Op.callDone id callErr)).server.clients j = mapGet sys.server.clients j := by
  simp only [step]
  cases hf : findPending sys.pending id with
  | none => rfl
  | some d =>
    have hid := (findPending_some sys.pending id d hf).2
    rcases h with h | h
    · exact deliver_get_ne sys.server d callErr j (fun x => h (hid.symm.trans x.symm))
    · subst h
      simp [deliver_false]

theorem step_callDone_quiet (sys : System) (id : String) (callErr : Bool) (j : String)
    (hq : ∀ d ∈ sys.pending, d.clientID ≠ j) :
    mapGet (step sys (Op.callDone id callErr)).server.clients j = mapGet sys.server.clients j
    ∧ ∀ d ∈ (step sys (Op.callDone id callErr)).pending, d.clientID ≠ j := by
  by_cases h : id = j
  · subst h
    have hn := findPending_none sys.pending id hq
    constructor
    · simp [step, hn]
    · simp only [step, hn]
      exact hq
  · refine ⟨step_callDone_get sys id callErr j (Or.inl h), ?_⟩
    simp only [step]
    cases hf : findPending sys.pending id with
    | none => exact hq
    | some d =>
      intro d' hd'
      exact hq d' ((dropPending_sublist sys.pending id).subset hd')

theorem run_callResults_get (rs : List (String × Bool)) (sys : System) (j : String)
    (h : (∀ d ∈ sys.pending, d.clientID ≠ j) ∨ ∀ r ∈ rs, r.1 = j → r.2 = false) :
    mapGet (run sys (callResults rs)).server.clients j = mapGet sys.server.clients j := by
  induction rs generalizing sys with
  | nil => rfl
  | cons r rs ih =>
    have hrun : run sys (callResults (r :: rs))
        = run (step sys (Op.callDone r.1 r.2)) (callResults rs) := rfl
    rw [hrun]
    rcases h with h | h
    · have hs := step_callDone_quiet sys r.1 r.2 j h
      rw [ih _ (Or.inl hs.2), hs.1]
    · have hr : r.1 ≠ j ∨ r.2 = false := by
        by_cases hj : r.1 = j
        · exact Or.inr (h r (List.mem_cons_self _ _) hj)
        · exact Or.inl hj
      rw [ih _ (Or.inr (fun r' hr' => h r' (List.mem_cons_of_mem _ hr'))),
        step_callDone_get sys r.1 r.2 j hr]

theorem run_callResults_history (rs : List (String × Bool)) (sys : System) :
    (run sys (callResults rs)).server.history = sys.server.history := by
  rw [run_history]
  have h : (callResults rs).filterMap Op.specEvent = [] := by
    induction rs with
    | nil => rfl
    | cons r rs ih => simp [callResults, Op.specEvent]
  rw [h, List.append_nil]

/-- C5: when the delivery call of a pending delivery to identity i returns an
error, the handler leaves i without a registry entry and without a delivery
goroutine; i stays so through every later sequence of steps that contains no
successful Join of i, and no fan-out taken in such a state spawns a delivery to
i.  The handler changes no other identity's entry, nor the log, nor the queue.
Over a whole fan-out of an event E, the entry of E.SenderID and every entry
whose delivery call did not return an error are as they were at the snapshot,
and the log is unchanged.  SendMessage replies Ok = true with a nil error
before, and independently of, any delivery. -/
theorem failed_delivery_prunes_identity (sys : System) (hwf : WF sys) (d : Delivery)
    (hd : d ∈ sys.pending) :
    mapGet (step sys (Op.callDone d.clientID true)).server.clients d.clientID = none
    ∧ (∀ d' ∈ (step sys (Op.callDone d.clientID true)).pending, d'.clientID ≠ d.clientID)
    ∧ (∀ ops : List Op, (∀ op ∈ ops, op.joins d.clientID = false) →
        mapGet (run (step sys (Op.callDone d.clientID true)) ops).server.clients d.clientID = none
        ∧ (∀ d' ∈ (run (step sys (Op.callDone d.clientID true)) ops).pending,
            d'.clientID ≠ d.clientID)
        ∧ (∀ msg : Message,
            ((broadcaster.spawn msg (run (step sys (Op.callDone d.clientID true)) ops).server.clients).map
              Delivery.clientID).count d.clientID = 0))
    ∧ (∀ j : String, j ≠ d.clientID →
        mapGet (step sys (Op.callDone d.clientID true)).server.clients j
          = mapGet sys.server.clients j)
    ∧ (step sys (Op.callDone d.clientID true)).server.history = sys.server.history
    ∧ (step sys (Op.callDone d.clientID true)).server.broadcast = sys.server.broadcast
    ∧ (∀ (sys0 : System) (E : Message) (rest : List Message) (rs : List (String × Bool)),
        sys0.pending = [] → sys0.server.broadcast = E :: rest →
        (∀ j : String, (j = E.SenderID ∨ ∀ r ∈ rs, r.1 = j → r.2 = false) →
          mapGet (run (step sys0 Op.fanout) (callResults rs)).server.clients j
            = mapGet sys0.server.clients j)
        ∧ (run (step sys0 Op.fanout) (callResults rs)).server.history = sys0.server.history)
    ∧ (∀ (s : ChatServer) (args : SendArgs) (now : Nat),
        (SendMessage s args now).reply.Ok = true ∧ (SendMessage s args now).err = none) := by
  have hfind := findPending_of_mem sys.pending hwf.2 d hd
  have habs : Absent d.clientID (step sys (Op.callDone d.clientID true)) := by
    simp only [Absent, step, hfind]
    exact ⟨deliver_true_get_self sys.server d, not_mem_dropPending sys.pending hwf.2 d.clientID⟩
  refine ⟨habs.1, habs.2, ?_, ?_, ?_, ?_, ?_, ?_⟩
  · intro ops hops
    have hrun := Absent_run d.clientID ops _ hops habs
    refine ⟨hrun.1, hrun.2, ?_⟩
    intro msg
    have hw := WF_run ops _ (WF_step sys (Op.callDone d.clientID true) hwf)
    rw [count_spawn_id msg _ hw.1, if_neg]
    intro hc
    exact (mapGet_eq_none_iff _ _).1 hrun.1 hc.1
  · intro j hj
    exact step_callDone_get sys d.clientID true j (Or.inl (Ne.symm hj))
  · simpa [Op.specEvent] using step_history sys (Op.callDone d.clientID true)
  · simp only [step, hfind]
    exact deliver_broadcast sys.server d true
  · intro sys0 E rest rs hp hq
    have hfan : step sys0 Op.fanout
        = { server := { sys0.server with broadcast := rest },
            pending := broadcaster.spawn E sys0.server.clients } := by
      simp [step, hp, broadcaster.recv, hq]
    refine ⟨?_, ?_⟩
    · intro j hj
      rw [hfan]
      rcases hj with hj | hj
      · rw [run_callResults_get rs _ j (Or.inl ?_)]
        intro d' hd' he
        exact ((mem_spawn E sys0.server.clients d').1 hd').2.1 (he.trans hj)
      · rw [run_callResults_get rs _ j (Or.inr hj)]
    · rw [run_callResults_history, hfan]
  · intro s args now
    simp [SendMessage]

/-- C5, at a concrete input: alice and bob are registered, bob's "hi" is being
fanned out and the delivery call to alice fails; then carol joins and sends. -/
theorem failed_delivery_prunes_identity_witness :
    mapGet (run (step (run System.init
        [Op.join { ClientID := "alice", Addr := ":10001" } 1 (Except.ok 7),
         Op.fanout, Op.callDone "alice" false,
         Op.join { ClientID := "bob", Addr := ":10002" } 2 (Except.ok 8),
         Op.fanout, Op.callDone "alice" false, Op.callDone "bob" false,
         Op.send { SenderID := "bob", Text := "hi" } 3,
         Op.fanout]) (Op.callDone "alice" true))
        [Op.join { ClientID := "carol", Addr := ":10003" } 4 (Except.ok 9),
         Op.send { SenderID := "carol", Text := "yo" } 5,
         Op.fanout, Op.callDone "bob" false, Op.callDone "carol" false,
         Op.fanout]).server.clients "alice" = none :=
  ((failed_delivery_prunes_identity
      (run System.init
        [Op.join { ClientID := "alice", Addr := ":10001" } 1 (Except.ok 7),
         Op.fanout, Op.callDone "alice" false,
         Op.join { ClientID := "bob", Addr := ":10002" } 2 (Except.ok 8),
         Op.fanout, Op.callDone "alice" false, Op.callDone "bob" false,
         Op.send { SenderID := "bob", Text := "hi" } 3,
         Op.fanout])
      (WF_run _ _ WF_init)
      { clientID := "alice", client := 7,
        msg := { SenderID := "bob", Timestamp := 3, Text := "hi" } }
      (by decide)).2.2.1
    [Op.join { ClientID := "carol", Addr := ":10003" } 4 (Except.ok 9),
     Op.send { SenderID := "carol", Text := "yo" } 5,
     Op.fanout, Op.callDone "bob" false, Op.callDone "carol" false,
     Op.fanout] (by decide)).1

/-! ## Re-joining -/

theorem step_callDone_of_find (sys : System) (id : String) (callErr : Bool) (d : Delivery)
    (h : findPending sys.pending id = some d) :
    step sys (Op.callDone id callErr)
      = { server := (broadcaster.deliver sys.server d callErr).1, pending := dropPending sys.pending id } := by
  simp only [step, h]

theorem step_get_stable (sys : System) (op : Op) (i : String) (hop : op.joins i = false) :
    mapGet (step sys op).server.clients i = mapGet sys.server.clients i
    ∨ mapGet (step sys op).server.clients i = none := by
  cases op with
  | join args now dial => exact Or.inl (Join_get_of_not_joins sys.server args now dial i hop)
  | getHistory => exact Or.inl rfl
  | send args now => exact Or.inl rfl
  | fanout =>
    left
    simp only [step]
    cases hpd : sys.pending with
    | cons d ds => rfl
    | nil =>
      cases hq : sys.server.broadcast with
      | nil => simp [broadcaster.recv, hq]
      | cons e rest => simp [broadcaster.recv, hq]
  | callDone id callErr =>
    simp only [step]
    cases hf : findPending sys.pending id with
    | none => exact Or.inl rfl
    | some d =>
      by_cases h : i = d.clientID
      · cases callErr
        · left
          simp [deliver_false]
        · right
          rw [h]
          exact deliver_true_get_self sys.server d
      · exact Or.inl (deliver_get_ne sys.server d callErr i h)

theorem run_get_stable (ops : List Op) (sys : System) (i : String)
    (hops : ∀ op ∈ ops, op.joins i = false) :
    mapGet (run sys ops).server.clients i = mapGet sys.server.clients i
    ∨ mapGet (run sys ops).server.clients i = none := by
  induction ops generalizing sys with
  | nil => exact Or.inl rfl
  | cons op ops ih =>
    have hrun : run sys (op :: ops) = run (step sys op) ops := rfl
    rw [hrun]
    rcases ih (step sys op) (fun o ho => hops o (List.mem_cons_of_mem _ ho)) with h | h
    · rcases step_get_stable sys op i (hops op (List.mem_cons_self _ _)) with h2 | h2
      · exact Or.inl (h.trans h2)
      · exact Or.inr (h.trans h2)
    · exact Or.inr h

theorem Join_ok_server (s : ChatServer) (args : JoinArgs) (now : Nat) (cli : RpcClient)
    (hok : (Join s args now (Except.ok cli)).err = none) :
    Join s args now (Except.ok cli)
      = { server :=
            { clients := mapSet s.clients args.ClientID cli,
              history := s.history ++ [joinMsg args now],
              broadcast := s.broadcast ++ [joinMsg args now] },
          reply := { History := s.history ++ [joinMsg args now] },
          err := none,
          trace :=
            [Action.dial args.Addr, Action.lock, Action.lookupClients]
              ++ closeOld s.clients args.ClientID
              ++ [Action.storeClients, Action.readHistory, Action.appendHistory,
                  Action.readHistory, Action.unlock, Action.chanSend (joinMsg args now),
                  Action.lenClients],
          parked := decide (broadcastCap ≤ s.broadcast.length) } := by
  unfold Join at hok ⊢
  by_cases hv : args.ClientID = "" ∨ args.Addr = ""
  · simp [hv] at hok
  · rw [if_neg hv]

/-- C6: when identity i is registered with connection c_old and a Join of i
succeeds with a newly dialled connection c_new, the registry afterwards maps i
to c_new, Join has called Close on c_old exactly once and on nothing else,
every other identity's entry is unchanged, the registry has the same identities
and the same number of entries, one per identity; and in every state reached
afterwards without another successful Join of i, a fan-out spawns at most one
delivery for i, over c_new and not over c_old. -/
theorem rejoin_replaces_channel (sys : System) (hwf : WF sys) (i addr : String) (now : Nat)
    (c_old c_new : RpcClient) (hold : mapGet sys.server.clients i = some c_old)
    (hok : (Join sys.server { ClientID := i, Addr := addr } now (Except.ok c_new)).err = none)
    (hfresh : c_new ≠ c_old) :
    mapGet (Join sys.server { ClientID := i, Addr := addr } now
        (Except.ok c_new)).server.clients i = some c_new
    ∧ (Join sys.server { ClientID := i, Addr := addr } now (Except.ok c_new)).trace.filter
        (fun a => match a with | Action.close _ => true | _ => false) = [Action.close c_old]
    ∧ (∀ j : String, j ≠ i →
        mapGet (Join sys.server { ClientID := i, Addr := addr } now
          (Except.ok c_new)).server.clients j = mapGet sys.server.clients j)
    ∧ (Join sys.server { ClientID := i, Addr := addr } now
        (Except.ok c_new)).server.clients.length = sys.server.clients.length
    ∧ mapKeys (Join sys.server { ClientID := i, Addr := addr } now
        (Except.ok c_new)).server.clients = mapKeys sys.server.clients
    ∧ (mapKeys (Join sys.server { ClientID := i, Addr := addr } now
        (Except.ok c_new)).server.clients).Nodup
    ∧ (∀ (ops : List Op) (msg : Message), (∀ op ∈ ops, op.joins i = false) →
        ((broadcaster.spawn msg (run (step sys (Op.join { ClientID := i, Addr := addr } now
            (Except.ok c_new))) ops).server.clients).map Delivery.clientID).count i ≤ 1
        ∧ ∀ d ∈ broadcaster.spawn msg (run (step sys (Op.join { ClientID := i, Addr := addr } now
            (Except.ok c_new))) ops).server.clients,
            d.clientID = i → d.client = c_new ∧ d.client ≠ c_old) := by
  have hmem : i ∈ mapKeys sys.server.clients := by
    by_contra hc
    rw [← mapGet_eq_none_iff, hold] at hc
    exact absurd hc (by simp)
  have hJ := Join_ok_server sys.server { ClientID := i, Addr := addr } now c_new hok
  have hget : mapGet (Join sys.server { ClientID := i, Addr := addr } now
      (Except.ok c_new)).server.clients i = some c_new := by
    rw [hJ]
    exact mapGet_mapSet_self sys.server.clients i c_new
  refine ⟨hget, ?_, ?_, ?_, ?_, ?_, ?_⟩
  · rw [hJ]
    simp [closeOld, hold]
  · intro j hj
    rw [hJ]
    exact mapGet_mapSet_ne sys.server.clients i j c_new hj
  · rw [hJ]
    exact length_mapSet_of_mem sys.server.clients i c_new hmem
  · rw [hJ]
    exact mapKeys_mapSet_of_mem sys.server.clients i c_new hmem
  · exact Join_nodup sys.server _ now _ hwf.1
  · intro ops msg hops
    have hw := WF_run ops _
      (WF_step sys (Op.join { ClientID := i, Addr := addr } now (Except.ok c_new)) hwf)
    refine ⟨?_, ?_⟩
    · rw [count_spawn_id msg _ hw.1]
      split <;> simp
    · intro d hd hdi
      obtain ⟨_, _, h3⟩ := (mem_spawn msg _ d).1 hd
      have hg := mapGet_eq_some_of_mem _ _ _ hw.1 h3
      rw [hdi] at hg
      have hnew : d.client = c_new := by
        rcases run_get_stable ops (step sys (Op.join { ClientID := i, Addr := addr } now
            (Except.ok c_new))) i hops with h | h
        · rw [hg] at h
          have h' : some d.client = some c_new := h.trans hget
          exact Option.some.inj h'
        · rw [hg] at h
          exact absurd h (by simp)
      exact ⟨hnew, hnew ▸ hfresh⟩

/-- C6, at a concrete input: alice re-joins over connection 9 while registered
over connection 7, next to bob. -/
theorem rejoin_replaces_channel_witness :
    mapGet (Join (run System.init
        [Op.join { ClientID := "alice", Addr := ":10001" } 1 (Except.ok 7),
         Op.join { ClientID := "bob", Addr := ":10002" } 2 (Except.ok 8)]).server
      { ClientID := "alice", Addr := ":10001" } 3 (Except.ok 9)).server.clients "alice"
      = some 9 :=
  (rejoin_replaces_channel
    (run System.init
      [Op.join { ClientID := "alice", Addr := ":10001" } 1 (Except.ok 7),
       Op.join { ClientID := "bob", Addr := ":10002" } 2 (Except.ok 8)])
    (WF_run _ _ WF_init) "alice" ":10001" 3 7 9 (by decide) (by decide) (by decide)).1

/-- C10: the failure handler prunes by identity.  The broadcaster snapshots the
registry with i mapped to c and spawns the delivery of E to i over c; a Join of
i then succeeds with a different connection c', closing c and registering c';
when the call over c then returns an error, the handler looks i up, calls Close
on c' and deletes i, so i has no registry entry although the only call made was
over c; every other identity's entry and the log are unchanged by that step. -/
theorem stale_failure_prunes_rejoined (sys : System) (hwf : WF sys) (E : Message)
    (rest : List Message) (hp : sys.pending = []) (hq : sys.server.broadcast = E :: rest)
    (i : String) (c : RpcClient) (hget : mapGet sys.server.clients i = some c)
    (hne : i ≠ E.SenderID) (addr : String) (now : Nat) (c' : RpcClient)
    (hok : (Join (step sys Op.fanout).server { ClientID := i, Addr := addr } now
      (Except.ok c')).err = none)
    (hfresh : c' ≠ c) :
    ({ clientID := i, client := c, msg := E } : Delivery) ∈ (step sys Op.fanout).pending
    ∧ Action.close c ∈ (Join (step sys Op.fanout).server { ClientID := i, Addr := addr } now
        (Except.ok c')).trace
    ∧ mapGet (step (step sys Op.fanout)
        (Op.join { ClientID := i, Addr := addr } now (Except.ok c'))).server.clients i = some c'
    ∧ findPending (step (step sys Op.fanout)
        (Op.join { ClientID := i, Addr := addr } now (Except.ok c'))).pending i
        = some { clientID := i, client := c, msg := E }
    ∧ (broadcaster.deliver (step (step sys Op.fanout)
        (Op.join { ClientID := i, Addr := addr } now (Except.ok c'))).server
        { clientID := i, client := c, msg := E } true).2
        = [Action.call c E, Action.lock, Action.lookupClients, Action.close c',
           Action.deleteClients, Action.unlock]
    ∧ Action.call c' E ∉ (broadcaster.deliver (step (step sys Op.fanout)
        (Op.join { ClientID := i, Addr := addr } now (Except.ok c'))).server
        { clientID := i, client := c, msg := E } true).2
    ∧ mapGet (step (step (step sys Op.fanout)
        (Op.join { ClientID := i, Addr := addr } now (Except.ok c')))
        (Op.callDone i true)).server.clients i = none
    ∧ (∀ j : String, j ≠ i →
        mapGet (step (step (step sys Op.fanout)
          (Op.join { ClientID := i, Addr := addr } now (Except.ok c')))
          (Op.callDone i true)).server.clients j
        = mapGet (step (step sys Op.fanout)
          (Op.join { ClientID := i, Addr := addr } now (Except.ok c'))).server.clients j)
    ∧ (step (step (step sys Op.fanout)
        (Op.join { ClientID := i, Addr := addr } now (Except.ok c')))
        (Op.callDone i true)).server.history
        = (step (step sys Op.fanout)
          (Op.join { ClientID := i, Addr := addr } now (Except.ok c'))).server.history := by
  have hfan : step sys Op.fanout
      = { server := { sys.server with broadcast := rest },
          pending := broadcaster.spawn E sys.server.clients } := by
    simp [step, hp, broadcaster.recv, hq]
  have hd : ({ clientID := i, client := c, msg := E } : Delivery)
      ∈ (step sys Op.fanout).pending := by
    rw [hfan]
    exact (mem_spawn E sys.server.clients _).2 ⟨rfl, hne, mem_of_mapGet_eq_some _ _ _ hget⟩
  have hw1 : WF (step sys Op.fanout) := WF_step sys Op.fanout hwf
  have hJ := Join_ok_server (step sys Op.fanout).server { ClientID := i, Addr := addr } now c' hok
  have hget1 : mapGet (step sys Op.fanout).server.clients i = some c := by
    rw [hfan]
    exact hget
  have hs2 : mapGet (step (step sys Op.fanout)
      (Op.join { ClientID := i, Addr := addr } now (Except.ok c'))).server.clients i
      = some c' := by
    show mapGet (Join (step sys Op.fanout).server { ClientID := i, Addr := addr } now
      (Except.ok c')).server.clients i = some c'
    rw [hJ]
    exact mapGet_mapSet_self _ i c'
  have hf2 : findPending (step (step sys Op.fanout)
      (Op.join { ClientID := i, Addr := addr } now (Except.ok c'))).pending i
      = some { clientID := i, client := c, msg := E } :=
    findPending_of_mem (step sys Op.fanout).pending hw1.2 _ hd
  have htr : (broadcaster.deliver (step (step sys Op.fanout)
      (Op.join { ClientID := i, Addr := addr } now (Except.ok c'))).server
      { clientID := i, client := c, msg := E } true).2
      = [Action.call c E, Action.lock, Action.lookupClients, Action.close c',
         Action.deleteClients, Action.unlock] := by
    simp only [broadcaster.deliver, if_true, hs2]
  refine ⟨hd, ?_, hs2, hf2, htr, ?_, ?_, ?_, ?_⟩
  · rw [hJ]
    simp [closeOld, hget1]
  · rw [htr]
    simp [hfresh]
  · rw [step_callDone_of_find _ i true _ hf2]
    exact deliver_true_get_self (step (step sys Op.fanout)
      (Op.join { ClientID := i, Addr := addr } now (Except.ok c'))).server
      { clientID := i, client := c, msg := E }
  · intro j hj
    exact step_callDone_get _ i true j (Or.inl (Ne.symm hj))
  · simpa [Op.specEvent] using step_history (step (step sys Op.fanout)
      (Op.join { ClientID := i, Addr := addr } now (Except.ok c'))) (Op.callDone i true)

/-- C10, at a concrete input: bob's "hi" is snapshotted for alice over
connection 7, alice re-joins over connection 9, and the call over 7 fails. -/
theorem stale_failure_prunes_rejoined_witness :
    mapGet (run System.init
        [Op.join { ClientID := "alice", Addr := ":10001" } 1 (Except.ok 7),
         Op.fanout, Op.callDone "alice" false,
         Op.send { SenderID := "bob", Text := "hi" } 2,
         Op.fanout,
         Op.join { ClientID := "alice", Addr := ":10001" } 3 (Except.ok 9),
         Op.callDone "alice" true]).server.clients "alice" = none :=
  (stale_failure_prunes_rejoined
    (run System.init
      [Op.join { ClientID := "alice", Addr := ":10001" } 1 (Except.ok 7),
       Op.fanout, Op.callDone "alice" false,
       Op.send { SenderID := "bob", Text := "hi" } 2])
    (WF_run _ _ WF_init) { SenderID := "bob", Timestamp := 2, Text := "hi" } []
    (by decide) (by decide) "alice" 7 (by decide) (by decide) ":10001" 3 9
    (by decide) (by decide)).2.2.2.2.2.2.1

/-! ## The mutex -/

/-- C9 as stated fails.  In a successful Join the registry is read
(`len(s.clients)`) after the mutex has been released, and both Join (on a
re-join) and the failure handler of a delivery goroutine call Close on a
connection while holding the mutex. -/
theorem lock_discipline_as_stated_fails :
    disciplined Action.isAccess (fun _ => false) false
      (Join NewChatServer { ClientID := "alice", Addr := ":10001" } 1 (Except.ok 7)).trace = false
    ∧ disciplined (fun _ => false) Action.isNetwork false
      (Join (Join NewChatServer { ClientID := "alice", Addr := ":10001" } 1 (Except.ok 7)).server
        { ClientID := "alice", Addr := ":10001" } 2 (Except.ok 9)).trace = false
    ∧ disciplined (fun _ => false) Action.isNetwork false
      (broadcaster.deliver (Join NewChatServer { ClientID := "alice", Addr := ":10001" } 1
          (Except.ok 7)).server
        { clientID := "alice", client := 7,
          msg := { SenderID := "bob", Timestamp := 2, Text := "hi" } } true).2 = false
    ∧ ¬ (∀ (s : ChatServer) (args : JoinArgs) (now : Nat) (dial : Except String RpcClient),
          disciplined Action.isAccess Action.isNetwork false (Join s args now dial).trace
            = true) := by
  refine ⟨by decide, by decide, by decide, ?_⟩
  intro h
  exact absurd (h NewChatServer { ClientID := "alice", Addr := ":10001" } 1 (Except.ok 7))
    (by decide)

/-- C9, amended: in every execution path of GetHistory, SendMessage and the
broadcaster (its loop and its delivery goroutines) every read and every
mutation of the log and of the registry is performed while the mutex is held,
and so is, in Join, every mutation of either, every read of the log and the
registry lookup; the mutex is never held across dialing a participant or a
Client.Receive call; Close on a superseded or failed connection is called
while the mutex is held. -/
theorem lock_discipline (s : ChatServer) (args : JoinArgs) (sargs : SendArgs) (now : Nat)
    (dial : Except String RpcClient) (d : Delivery) (callErr : Bool) :
    disciplined (fun a => (a.isAccess && a != Action.lenClients) || a.isClose)
        (fun a => a.isDial || a.isCall) false (Join s args now dial).trace = true
    ∧ disciplined (fun a => a.isAccess || a.isClose) (fun a => a.isDial || a.isCall) false
        (GetHistory s).2.2 = true
    ∧ disciplined (fun a => a.isAccess || a.isClose) (fun a => a.isDial || a.isCall) false
        (SendMessage s sargs now).trace = true
    ∧ (∀ r, broadcaster.recv s = some r →
        disciplined (fun a => a.isAccess || a.isClose) (fun a => a.isDial || a.isCall) false
          r.2.2 = true)
    ∧ disciplined (fun a => a.isAccess || a.isClose) (fun a => a.isDial || a.isCall) false
        (broadcaster.deliver s d callErr).2 = true := by
  refine ⟨?_, ?_, ?_, ?_, ?_⟩
  · unfold Join
    by_cases hv : args.ClientID = "" ∨ args.Addr = ""
    · simp [hv, disciplined]
    · cases dial with
      | error e => simp [hv, disciplined, Action.isAccess, Action.isClose, Action.isDial,
          Action.isCall]
      | ok cli =>
        cases h : mapGet s.clients args.ClientID <;>
          simp [hv, closeOld, h, disciplined, Action.isAccess, Action.isClose, Action.isDial,
            Action.isCall]
  · simp [GetHistory, disciplined, Action.isAccess, Action.isClose, Action.isDial,
      Action.isCall]
  · simp [SendMessage, disciplined, Action.isAccess, Action.isClose, Action.isDial,
      Action.isCall]
  · intro r hr
    unfold broadcaster.recv at hr
    cases hq : s.broadcast with
    | nil => simp [hq] at hr
    | cons e rest =>
      simp only [hq, Option.some.injEq] at hr
      subst hr
      simp [disciplined, Action.isAccess, Action.isClose, Action.isDial, Action.isCall]
  · unfold broadcaster.deliver
    cases callErr
    · simp [disciplined, Action.isAccess, Action.isClose, Action.isDial, Action.isCall]
    · cases h : mapGet s.clients d.clientID <;>
        simp [disciplined, Action.isAccess, Action.isClose, Action.isDial, Action.isCall]

end RpcChat
